import Mathlib

/-!
# Session layer of the NETCONF client (`netconf/session.go`)

A shallow embedding of `Session.Exec` and `NewSession`.

* A Go `string` and a Go `[]byte` are both byte sequences and the conversions
  `string(b)` / `[]byte(s)` copy the bytes unchanged; both are modelled by
  `String`, the conversions by the identity.
* The `Transport` and `Logger` interfaces are method tables over an explicit
  state; every `Transport` method invocation is recorded in a call trace.
* A Go `(value, error)` pair is modelled by a pair whose error component is an
  `Option` (`none` is the `nil` error); a pointer result is an `Option`
  (`none` is the `nil` pointer).
* The `encoding/xml` functions are parameters (`Codec`).
-/

namespace Netconf

/-- Go byte slices, see the module comment. -/
abbrev Bytes := String

/-- Modelled from the spec: the `RPCError` declaration is not part of
`session.go`. One structured protocol error: a `Severity` and the accompanying
diagnostic text. -/
structure RPCError where
  Severity : String
  Message : String
  deriving DecidableEq, Repr

/-- A value of the Go interface type `error` as `Exec` can return it: the
`*RPCError` built on line 51, or any other error value produced by the codec or
the transport. -/
inductive GoError where
  | external (msg : String)
  | rpcError (e : RPCError)
  deriving DecidableEq, Repr

/-- An `RPCMethod` is a payload that the session never inspects. -/
abbrev RPCMethod := String

/-- Modelled from the spec: the `RPCMessage` declaration is not part of
`session.go`. The request envelope: the methods and the correlation identifier. -/
structure RPCMessage where
  MessageID : String
  Methods : List RPCMethod
  deriving DecidableEq, Repr

/-- Modelled from the spec: `NewRPCMessage` is not part of `session.go`. It
builds a request envelope containing all supplied methods; whatever identifier
it sets is overwritten by `Exec` on line 22. -/
def NewRPCMessage (methods : List RPCMethod) : RPCMessage :=
  { MessageID := "", Methods := methods }

/-- Modelled from the spec: the fields of `RPCReply` that `xml.Unmarshal` fills
in. `Errors` is a Go slice whose `nil`-ness the code tests, so it is an
`Option`; `Data` stands for the other protocol-defined elements, carried
through uninterpreted. -/
structure ReplyBody where
  Errors : Option (List RPCError) := none
  Data : String := ""
  deriving DecidableEq, Repr

/-- Modelled from the spec: the `RPCReply` declaration is not part of
`session.go`. The decoded structure together with `RawReply`, the raw text,
which `Exec` sets itself and which is not an XML-mapped field. The default
values are the Go zero value `RPCReply{}`. -/
structure RPCReply extends ReplyBody where
  RawReply : String := ""
  deriving DecidableEq, Repr

/-- Modelled from the spec: the `HelloMessage` declaration is not part of
`session.go`. The defaults are the Go zero values. -/
structure HelloMessage where
  Capabilities : List String := []
  SessionID : Int := 0
  deriving DecidableEq, Repr

/-- The constant `xml.Header` of `encoding/xml`. -/
def xmlHeader : String := "<?xml version=\"1.0\" encoding=\"UTF-8\"?>\n"

/-- The two `encoding/xml` entry points that `Exec` uses. `Marshal` is
`xml.Marshal` on a request envelope; `decode` is what `xml.Unmarshal` reads out
of the reply bytes. -/
structure Codec where
  Marshal : RPCMessage → Except GoError Bytes
  decode : Bytes → Except GoError ReplyBody

/-- The call `xml.Unmarshal(data, v)` for `v : *RPCReply`: on success the
XML-mapped fields of `v` are overwritten with what was decoded and `RawReply`
is left as it was. The result is the new value of `*v`. -/
def Codec.Unmarshal (c : Codec) (data : Bytes) (v : RPCReply) : Except GoError RPCReply :=
  match c.decode data with
  | .error err => .error err
  | .ok body => .ok { v with toReplyBody := body }

/-- One invocation of a method of the `Transport` interface, with its arguments. -/
inductive Call where
  | ReceiveHello
  | SendHello (hello : HelloMessage)
  | StartReader
  | SendReceive (messageID : String) (request : Bytes)
  | Close
  deriving DecidableEq, Repr

/-- The `Transport` interface over a transport state `σ`. Each method returns
its Go results and the new state. -/
structure Transport (σ : Type) where
  ReceiveHello : σ → (Option HelloMessage × Option GoError) × σ
  SendHello : HelloMessage → σ → Option GoError × σ
  StartReader : σ → σ
  SendReceive : String → Bytes → σ → (Bytes × Option GoError) × σ
  Close : σ → Option GoError × σ

/-- The `Logger` interface over a logger state `ρ`: `Debugf` takes the format
string and its argument. -/
structure Logger (ρ : Type) where
  Debugf : String → Bytes → ρ → ρ

/-- Everything outside the session that a call can change: the state of the
transport, the state of the logger, and the trace of `Transport` calls made so
far (oldest first). -/
structure World (σ ρ : Type) where
  transport : σ
  logger : ρ
  calls : List Call

/-- The `Session` struct. -/
structure Session (σ ρ : Type) where
  Transport : Transport σ
  SessionID : Int := 0
  ServerCapabilities : List String := []
  ErrOnWarning : Bool := false
  log : Logger ρ

/-- Result of a Go function that may stop with a run-time panic. -/
inductive Outcome (α : Type) where
  | returned (a : α)
  | panicked

variable {σ ρ : Type}

/-- Invocation `log.Debugf(format, arg)`. -/
def World.debugf (w : World σ ρ) (log : Logger ρ) (format : String) (arg : Bytes) : World σ ρ :=
  { w with logger := log.Debugf format arg w.logger }

/-- Invocation `t.ReceiveHello()`, recorded in the trace. -/
def World.receiveHello (w : World σ ρ) (t : Transport σ) :
    (Option HelloMessage × Option GoError) × World σ ρ :=
  let r := t.ReceiveHello w.transport
  (r.1, { w with transport := r.2, calls := w.calls ++ [Call.ReceiveHello] })

/-- Invocation `t.SendHello(hello)`, recorded in the trace. -/
def World.sendHello (w : World σ ρ) (t : Transport σ) (hello : HelloMessage) :
    Option GoError × World σ ρ :=
  let r := t.SendHello hello w.transport
  (r.1, { w with transport := r.2, calls := w.calls ++ [Call.SendHello hello] })

/-- Invocation `t.StartReader()`, recorded in the trace. -/
def World.startReader (w : World σ ρ) (t : Transport σ) : World σ ρ :=
  { w with transport := t.StartReader w.transport, calls := w.calls ++ [Call.StartReader] }

/-- Invocation `t.SendReceive(messageID, request)`, recorded in the trace. -/
def World.sendReceive (w : World σ ρ) (t : Transport σ) (messageID : String) (request : Bytes) :
    (Bytes × Option GoError) × World σ ρ :=
  let r := t.SendReceive messageID request w.transport
  (r.1, { w with transport := r.2, calls := w.calls ++ [Call.SendReceive messageID request] })

/-- Invocation `t.Close()`, recorded in the trace. -/
def World.close (w : World σ ρ) (t : Transport σ) : Option GoError × World σ ρ :=
  let r := t.Close w.transport
  (r.1, { w with transport := r.2, calls := w.calls ++ [Call.Close] })

/-- `Session.Close`. -/
def Session.Close (s : Session σ ρ) (w : World σ ρ) : Option GoError × World σ ρ :=
  w.close s.Transport

/-- The loop of lines 49-53 of `Session.Exec`: the entries are visited in slice
order and the first one with `rpcErr.Severity == "error" || s.ErrOnWarning`
ends the loop; `none` when the loop runs to its end. -/
def Session.Exec.rangeErrors (ErrOnWarning : Bool) : List RPCError → Option RPCError
  | [] => none
  | rpcErr :: rest =>
    if rpcErr.Severity == "error" || ErrOnWarning then some rpcErr
    else Session.Exec.rangeErrors ErrOnWarning rest

/-- Lines 47-57 of `Session.Exec`: what is returned once the reply is decoded. -/
def Session.Exec.classify (ErrOnWarning : Bool) (reply : RPCReply) :
    Option RPCReply × Option GoError :=
  match reply.Errors with
  | some errors =>
    match Session.Exec.rangeErrors ErrOnWarning errors with
    | some rpcErr => (some reply, some (GoError.rpcError rpcErr))
    | none => (some reply, none)
  | none => (some reply, none)

/-- `Session.Exec`: the returned `(*RPCReply, error)` and the world after the
call. -/
def Session.Exec (c : Codec) (s : Session σ ρ) (messageID : String) (methods : List RPCMethod)
    (w : World σ ρ) : (Option RPCReply × Option GoError) × World σ ρ :=
  let rpc := NewRPCMessage methods
  let rpc := { rpc with MessageID := messageID }
  match c.Marshal rpc with
  | .error err => ((none, some err), w)
  | .ok request =>
    let request := xmlHeader ++ request
    let w := w.debugf s.log "Exec: REQUEST: %s\n" request
    let r := w.sendReceive s.Transport messageID request
    let rawXML := r.1.1
    let w := r.2
    match r.1.2 with
    | some err => ((none, some err), w)
    | none =>
      let w := w.debugf s.log "Exec: REPLY: %s\n" rawXML
      let reply : RPCReply := {}
      let reply := { reply with RawReply := rawXML }
      match c.Unmarshal rawXML reply with
      | .error err => ((none, some err), w)
      | .ok reply => (Session.Exec.classify s.ErrOnWarning reply, w)

/-- `NewSession`. `DefaultCapabilities` is a package variable declared outside
`session.go` and is a parameter here. Reading `serverHello.SessionID` through a
`nil` `serverHello` is a run-time panic. -/
def NewSession (DefaultCapabilities : List String) (t : Transport σ) (log : Logger ρ)
    (w : World σ ρ) : Outcome (Session σ ρ) × World σ ρ :=
  let s : Session σ ρ := { Transport := t, log := log }
  let r := w.receiveHello t
  let w := r.2
  match r.1.1 with
  | none => (Outcome.panicked, w)
  | some serverHello =>
    let s := { s with SessionID := serverHello.SessionID }
    let s := { s with ServerCapabilities := serverHello.Capabilities }
    let w := (w.sendHello t { Capabilities := DefaultCapabilities }).2
    let w := w.startReader t
    (Outcome.returned s, w)

/-! ## The severity rule in the words of the specification -/

/-- The threshold as the specification words it: the severity is "error", or it
is "warning" while `ErrOnWarning` is enabled. -/
def specThreshold (ErrOnWarning : Bool) (e : RPCError) : Bool :=
  e.Severity == "error" || (e.Severity == "warning" && ErrOnWarning)

/-- The error the specification's rule selects: the first entry meeting
`specThreshold`, or no error. -/
def specExecError (ErrOnWarning : Bool) (errors : List RPCError) : Option GoError :=
  (errors.find? (specThreshold ErrOnWarning)).map GoError.rpcError

/-! ## Concrete collaborators used to evaluate the model -/

/-- A logger that keeps every formatted line. -/
def recordingLogger : Logger (List String) :=
  { Debugf := fun format arg lines => lines ++ [format ++ arg] }

/-- A transport whose answers are fixed in advance; its state counts the calls
it has served. -/
def scriptedTransport (hello : Option HelloMessage) (helloErr : Option GoError)
    (rawXML : Bytes) (err : Option GoError) : Transport Nat :=
  { ReceiveHello := fun n => ((hello, helloErr), n + 1)
    SendHello := fun _ n => (none, n + 1)
    StartReader := fun n => n + 1
    SendReceive := fun _ _ n => ((rawXML, err), n + 1)
    Close := fun n => (none, n + 1) }

/-- A codec given by a table: encoding concatenates the identifier and the
methods and fails on an envelope without methods; decoding looks the reply text
up in the table and fails when it is absent. -/
def tableCodec (table : List (Bytes × ReplyBody)) : Codec :=
  { Marshal := fun rpc =>
      if rpc.Methods = [] then .error (GoError.external "xml: nothing to encode")
      else .ok (rpc.MessageID ++ ":" ++ String.join rpc.Methods)
    decode := fun data =>
      match table.lookup data with
      | some body => .ok body
      | none => .error (GoError.external "xml: malformed reply") }

/-- A world in which nothing has happened yet. -/
def freshWorld : World Nat (List String) :=
  { transport := 0, logger := [], calls := [] }

/-- A session over a scripted transport that replies `rawXML`. -/
def scriptedSession (rawXML : Bytes) (err : Option GoError) (ErrOnWarning : Bool) :
    Session Nat (List String) :=
  { Transport := scriptedTransport none none rawXML err
    ErrOnWarning := ErrOnWarning
    log := recordingLogger }

def warnEntry : RPCError := { Severity := "warning", Message := "statement not found" }

def errEntry : RPCError := { Severity := "error", Message := "bad element" }

def infoEntry : RPCError := { Severity := "info", Message := "commit scheduled" }

/-- Reply texts and what they decode to. -/
def sampleTable : List (Bytes × ReplyBody) :=
  [ ("<ok/>", { Errors := none, Data := "<ok/>" }),
    ("<w/>", { Errors := some [warnEntry] }),
    ("<e/>", { Errors := some [errEntry] }),
    ("<i/>", { Errors := some [infoEntry] }),
    ("<w/><e/>", { Errors := some [warnEntry, errEntry] }),
    ("<e/><w/>", { Errors := some [errEntry, warnEntry] }),
    ("<w/><w/>", { Errors := some [warnEntry, warnEntry] }) ]

/-- A capability list for the client to advertise. -/
def clientCapabilities : List String := ["urn:ietf:params:netconf:base:1.0"]

/-- A peer hello with a session identifier. -/
def peerHello : HelloMessage :=
  { Capabilities := ["urn:ietf:params:netconf:base:1.0",
      "urn:ietf:params:netconf:capability:candidate:1.0"]
    SessionID := 4711 }

/-- A peer hello in which the session identifier was left at its zero value. -/
def anonymousHello : HelloMessage :=
  { Capabilities := ["urn:ietf:params:netconf:base:1.0"] }

/-! ## Shared lemmas about `Session.Exec` -/

section Lemmas

variable {σ ρ : Type}

/-- The loop returns the first entry, in list order, that satisfies its test. -/
theorem rangeErrors_eq_find (eow : Bool) (errors : List RPCError) :
    Session.Exec.rangeErrors eow errors
      = errors.find? (fun e => e.Severity == "error" || eow) := by
  induction errors with
  | nil => rfl
  | cons e rest ih =>
    by_cases h : (e.Severity == "error" || eow) = true
    · simp [Session.Exec.rangeErrors, List.find?, h]
    · simp only [Bool.not_eq_true] at h
      simp [Session.Exec.rangeErrors, List.find?, h, ih]

/-- Two tests that agree on the entries of a list pick the same first entry. -/
theorem find_agree {α : Type} (p q : α → Bool) (l : List α) (h : ∀ a ∈ l, p a = q a) :
    l.find? p = l.find? q := by
  induction l with
  | nil => rfl
  | cons a rest ih =>
    have ha : p a = q a := h a (List.mem_cons_self a rest)
    have hr : rest.find? p = rest.find? q :=
      ih (fun b hb => h b (List.mem_cons_of_mem a hb))
    simp only [List.find?, ha, hr]

/-- The error component of `classify`, with a `nil` slice read as the empty list. -/
theorem classify_error (eow : Bool) (reply : RPCReply) :
    (Session.Exec.classify eow reply).2
      = (Session.Exec.rangeErrors eow (reply.Errors.getD [])).map GoError.rpcError := by
  unfold Session.Exec.classify
  split
  · next errors h =>
    split
    · next rpcErr h2 => simp [h, h2]
    · next h2 => simp [h, h2]
  · next h => simp [h, Session.Exec.rangeErrors]

/-- The reply component of `classify` is always the decoded reply itself. -/
theorem classify_reply (eow : Bool) (reply : RPCReply) :
    (Session.Exec.classify eow reply).1 = some reply := by
  unfold Session.Exec.classify
  split
  · split <;> rfl
  · rfl

/-- Encoding failure: nothing else happens. -/
theorem Exec_of_marshal_error (c : Codec) (s : Session σ ρ) (messageID : String)
    (methods : List RPCMethod) (w : World σ ρ) (err : GoError)
    (hm : c.Marshal { MessageID := messageID, Methods := methods } = .error err) :
    s.Exec c messageID methods w = ((none, some err), w) := by
  simp [Session.Exec, NewRPCMessage, hm]

/-- Transport failure: the error is handed back without a reply. -/
theorem Exec_of_transport_error (c : Codec) (s : Session σ ρ) (messageID : String)
    (methods : List RPCMethod) (w : World σ ρ) (request : Bytes) (err : GoError)
    (hm : c.Marshal { MessageID := messageID, Methods := methods } = .ok request)
    (hs : (s.Transport.SendReceive messageID (xmlHeader ++ request) w.transport).1.2 = some err) :
    (s.Exec c messageID methods w).1 = (none, some err) := by
  simp [Session.Exec, NewRPCMessage, hm, World.sendReceive, World.debugf, hs]

/-- Decoding failure: the error is handed back without a reply. -/
theorem Exec_of_decode_error (c : Codec) (s : Session σ ρ) (messageID : String)
    (methods : List RPCMethod) (w : World σ ρ) (request rawXML : Bytes) (err : GoError)
    (hm : c.Marshal { MessageID := messageID, Methods := methods } = .ok request)
    (hs : (s.Transport.SendReceive messageID (xmlHeader ++ request) w.transport).1
      = (rawXML, none))
    (hd : c.decode rawXML = .error err) :
    (s.Exec c messageID methods w).1 = (none, some err) := by
  have h1 := congrArg Prod.fst hs
  have h2 := congrArg Prod.snd hs
  simp only at h1 h2
  simp [Session.Exec, NewRPCMessage, hm, World.sendReceive, World.debugf, h1, h2,
    Codec.Unmarshal, hd]

/-- All three stages succeed: the result is the classification of the decoded
reply, whose raw text is what the transport returned. -/
theorem Exec_of_decoded (c : Codec) (s : Session σ ρ) (messageID : String)
    (methods : List RPCMethod) (w : World σ ρ) (request rawXML : Bytes) (body : ReplyBody)
    (hm : c.Marshal { MessageID := messageID, Methods := methods } = .ok request)
    (hs : (s.Transport.SendReceive messageID (xmlHeader ++ request) w.transport).1
      = (rawXML, none))
    (hd : c.decode rawXML = .ok body) :
    (s.Exec c messageID methods w).1
      = Session.Exec.classify s.ErrOnWarning { toReplyBody := body, RawReply := rawXML } := by
  have h1 := congrArg Prod.fst hs
  have h2 := congrArg Prod.snd hs
  simp only at h1 h2
  simp [Session.Exec, NewRPCMessage, hm, World.sendReceive, World.debugf, h1, h2,
    Codec.Unmarshal, hd]

/-- Once the envelope is encoded, the trace grows by exactly one `SendReceive`. -/
theorem Exec_calls_of_marshal_ok (c : Codec) (s : Session σ ρ) (messageID : String)
    (methods : List RPCMethod) (w : World σ ρ) (request : Bytes)
    (hm : c.Marshal { MessageID := messageID, Methods := methods } = .ok request) :
    (s.Exec c messageID methods w).2.calls
      = w.calls ++ [Call.SendReceive messageID (xmlHeader ++ request)] := by
  simp only [Session.Exec, NewRPCMessage, hm]
  split
  · simp [World.sendReceive, World.debugf]
  · split <;> simp [World.sendReceive, World.debugf]

end Lemmas

/-! ## Severity arbitration (lines 47-57) -/

section Severity

variable {σ ρ : Type}

/-- C10: after a successful decode, `Exec` returns a non-nil error exactly when
the decoded `Errors` list is non-empty and `ErrOnWarning` is true or some entry
has `Severity` equal to "error"; the error is the first entry satisfying
`Severity == "error" || ErrOnWarning`, which is `Errors[0]` when `ErrOnWarning`
is true and the first "error" entry when it is false. The loop depends on a
severity only through its equality with "error": relabelling the entries in a
way that keeps that equality does not change which entry is picked. -/
theorem Exec_failure_condition (c : Codec) (s : Session σ ρ) (messageID : String)
    (methods : List RPCMethod) (w : World σ ρ) (request rawXML : Bytes) (body : ReplyBody)
    (hm : c.Marshal { MessageID := messageID, Methods := methods } = .ok request)
    (hs : (s.Transport.SendReceive messageID (xmlHeader ++ request) w.transport).1
      = (rawXML, none))
    (hd : c.decode rawXML = .ok body) :
    ((s.Exec c messageID methods w).1.2 ≠ none ↔
        body.Errors.getD [] ≠ [] ∧
          (s.ErrOnWarning = true ∨ ∃ e ∈ body.Errors.getD [], e.Severity = "error"))
    ∧ (s.Exec c messageID methods w).1.2
        = ((body.Errors.getD []).find? (fun e => e.Severity == "error" || s.ErrOnWarning)).map
            GoError.rpcError
    ∧ (s.ErrOnWarning = true →
        (s.Exec c messageID methods w).1.2 = (body.Errors.getD []).head?.map GoError.rpcError)
    ∧ (s.ErrOnWarning = false →
        (s.Exec c messageID methods w).1.2
          = ((body.Errors.getD []).find? (fun e => e.Severity == "error")).map GoError.rpcError)
    ∧ (∀ f : RPCError → RPCError, (∀ e, (f e).Severity = "error" ↔ e.Severity = "error") →
        ∀ errors : List RPCError,
          Session.Exec.rangeErrors s.ErrOnWarning (errors.map f)
            = (Session.Exec.rangeErrors s.ErrOnWarning errors).map f) := by
  have key : (s.Exec c messageID methods w).1.2
      = ((body.Errors.getD []).find? (fun e => e.Severity == "error" || s.ErrOnWarning)).map
          GoError.rpcError := by
    rw [Exec_of_decoded c s messageID methods w request rawXML body hm hs hd, classify_error,
      rangeErrors_eq_find]
  refine ⟨?_, key, ?_, ?_, ?_⟩
  · rw [key]
    cases hE : s.ErrOnWarning
    · simp [List.find?_eq_none]
      intro e he hsev
      exact List.ne_nil_of_mem he
    · cases hl : body.Errors.getD [] <;> simp
  · intro h
    rw [key, h]
    cases body.Errors.getD [] <;> simp
  · intro h
    rw [key, h]
    simp
  · intro f hf errors
    induction errors with
    | nil => rfl
    | cons e rest ih =>
      have hfe : ((f e).Severity == "error") = (e.Severity == "error") := by
        rw [Bool.eq_iff_iff]; simpa using hf e
      by_cases h : (e.Severity == "error" || s.ErrOnWarning) = true
      · simp [Session.Exec.rangeErrors, hfe, h]
      · simp only [Bool.not_eq_true] at h
        simp [Session.Exec.rangeErrors, hfe, h, ih]

/-- Evaluation of `Exec_failure_condition` on a reply carrying a warning and
then an error, with `ErrOnWarning` set. -/
theorem Exec_failure_condition_witness :
    (((scriptedSession "<w/><e/>" none true).Exec (tableCodec sampleTable) "101" ["get"]
          freshWorld).1.2 ≠ none ↔
        [warnEntry, errEntry] ≠ [] ∧
          (true = true ∨ ∃ e ∈ [warnEntry, errEntry], e.Severity = "error"))
    ∧ ((scriptedSession "<w/><e/>" none true).Exec (tableCodec sampleTable) "101" ["get"]
          freshWorld).1.2 = some (GoError.rpcError warnEntry) := by
  have h := Exec_failure_condition (tableCodec sampleTable) (scriptedSession "<w/><e/>" none true)
    "101" ["get"] freshWorld "101:get" "<w/><e/>" { Errors := some [warnEntry, errEntry] }
    rfl rfl rfl
  exact ⟨h.1, h.2.2.1 rfl⟩

/-- C1 (as stated, refuted): with `ErrOnWarning` set, a reply whose only entry
has severity "info" makes `Exec` fail with that entry, although no entry meets
the stated threshold. -/
theorem Exec_threshold_counterexample :
    ((scriptedSession "<i/>" none true).Exec (tableCodec sampleTable) "101" ["get"]
        freshWorld).1.2 = some (GoError.rpcError infoEntry)
    ∧ specExecError true [infoEntry] = none
    ∧ infoEntry.Severity ≠ "error" ∧ infoEntry.Severity ≠ "warning" := by
  refine ⟨rfl, rfl, ?_, ?_⟩ <;> decide

/-- C1 (amended): when encoding, `SendReceive` and decoding succeed and either
`ErrOnWarning` is false or every entry has severity "error" or "warning", the
error of `Exec` is the first entry meeting the stated threshold, and nil when
there is none. With `ErrOnWarning` false an entry whose severity is not "error"
never makes `Exec` fail; with `ErrOnWarning` true a non-empty list makes `Exec`
fail with its first entry, whatever the severity of that entry. -/
theorem Exec_threshold_amended (c : Codec) (s : Session σ ρ) (messageID : String)
    (methods : List RPCMethod) (w : World σ ρ) (request rawXML : Bytes) (body : ReplyBody)
    (hm : c.Marshal { MessageID := messageID, Methods := methods } = .ok request)
    (hs : (s.Transport.SendReceive messageID (xmlHeader ++ request) w.transport).1
      = (rawXML, none))
    (hd : c.decode rawXML = .ok body) :
    ((s.ErrOnWarning = false ∨
        ∀ e ∈ body.Errors.getD [], e.Severity = "error" ∨ e.Severity = "warning") →
      (s.Exec c messageID methods w).1.2 = specExecError s.ErrOnWarning (body.Errors.getD []))
    ∧ (s.ErrOnWarning = false → (∀ e ∈ body.Errors.getD [], e.Severity ≠ "error") →
        (s.Exec c messageID methods w).1.2 = none)
    ∧ (s.ErrOnWarning = false →
        ∀ e, (s.Exec c messageID methods w).1.2 = some (GoError.rpcError e) →
          e.Severity = "error")
    ∧ (s.ErrOnWarning = true → ∀ e rest, body.Errors.getD [] = e :: rest →
        (s.Exec c messageID methods w).1.2 = some (GoError.rpcError e)) := by
  have key : (s.Exec c messageID methods w).1.2
      = ((body.Errors.getD []).find? (fun e => e.Severity == "error" || s.ErrOnWarning)).map
          GoError.rpcError := by
    rw [Exec_of_decoded c s messageID methods w request rawXML body hm hs hd, classify_error,
      rangeErrors_eq_find]
  refine ⟨?_, ?_, ?_, ?_⟩
  · intro h
    rw [key]
    unfold specExecError
    congr 1
    apply find_agree
    intro e he
    rcases h with h | h
    · simp [specThreshold, h]
    · rcases h e he with h1 | h1 <;> simp [specThreshold, h1]
  · intro h hne
    rw [key, h]
    simp only [Bool.or_false, Option.map_eq_none', List.find?_eq_none]
    intro e he
    simpa using hne e he
  · intro h e herr
    rw [key, h] at herr
    simp only [Bool.or_false, Option.map_eq_some', GoError.rpcError.injEq] at herr
    obtain ⟨e2, hfind, he2⟩ := herr
    subst he2
    simpa using List.find?_some hfind
  · intro h e rest hl
    rw [key, h, hl]
    simp

/-- Evaluation of `Exec_threshold_amended` on a reply carrying one warning, with
`ErrOnWarning` unset: the stated rule applies and selects nothing. -/
theorem Exec_threshold_amended_witness :
    ((scriptedSession "<w/>" none false).Exec (tableCodec sampleTable) "101" ["get"]
        freshWorld).1.2 = specExecError false [warnEntry]
    ∧ specExecError false [warnEntry] = none := by
  have h := Exec_threshold_amended (tableCodec sampleTable) (scriptedSession "<w/>" none false)
    "101" ["get"] freshWorld "101:get" "<w/>" { Errors := some [warnEntry] } rfl rfl rfl
  exact ⟨h.1 (Or.inl rfl), rfl⟩

/-- C2 (as stated, refuted): with `ErrOnWarning` set and a warning listed before
an error, `Exec` fails with the warning, not with the first entry of severity
"error". -/
theorem Exec_first_error_counterexample :
    ((scriptedSession "<w/><e/>" none true).Exec (tableCodec sampleTable) "101" ["get"]
        freshWorld).1.2 = some (GoError.rpcError warnEntry)
    ∧ [warnEntry, errEntry].find? (fun e => e.Severity == "error") = some errEntry
    ∧ GoError.rpcError warnEntry ≠ GoError.rpcError errEntry := by
  refine ⟨rfl, rfl, ?_⟩
  decide

/-- C2 (amended): when the decoded list has an entry of severity "error", `Exec`
returns a non-nil error for both values of `ErrOnWarning`. With `ErrOnWarning`
false it is the first entry of severity "error", also when other entries
precede it. With `ErrOnWarning` true it is the first entry of the list; that is
the first entry of severity "error" when the list starts with such an entry. -/
theorem Exec_first_error_amended (c : Codec) (s : Session σ ρ) (messageID : String)
    (methods : List RPCMethod) (w : World σ ρ) (request rawXML : Bytes) (body : ReplyBody)
    (hm : c.Marshal { MessageID := messageID, Methods := methods } = .ok request)
    (hs : (s.Transport.SendReceive messageID (xmlHeader ++ request) w.transport).1
      = (rawXML, none))
    (hd : c.decode rawXML = .ok body)
    (hex : ∃ e ∈ body.Errors.getD [], e.Severity = "error") :
    (s.Exec c messageID methods w).1.2 ≠ none
    ∧ (s.ErrOnWarning = false →
        (s.Exec c messageID methods w).1.2
          = ((body.Errors.getD []).find? (fun e => e.Severity == "error")).map GoError.rpcError)
    ∧ (s.ErrOnWarning = true →
        (s.Exec c messageID methods w).1.2 = (body.Errors.getD []).head?.map GoError.rpcError)
    ∧ ((∃ e rest, body.Errors.getD [] = e :: rest ∧ e.Severity = "error") →
        (s.Exec c messageID methods w).1.2
          = ((body.Errors.getD []).find? (fun e => e.Severity == "error")).map
              GoError.rpcError) := by
  have key : (s.Exec c messageID methods w).1.2
      = ((body.Errors.getD []).find? (fun e => e.Severity == "error" || s.ErrOnWarning)).map
          GoError.rpcError := by
    rw [Exec_of_decoded c s messageID methods w request rawXML body hm hs hd, classify_error,
      rangeErrors_eq_find]
  refine ⟨?_, ?_, ?_, ?_⟩
  · rw [key]
    obtain ⟨e, he, hsev⟩ := hex
    simp only [ne_eq, Option.map_eq_none', List.find?_eq_none, not_forall]
    exact ⟨e, he, by simp [hsev]⟩
  · intro h
    rw [key, h]
    simp
  · intro h
    rw [key, h]
    cases body.Errors.getD [] <;> simp
  · rintro ⟨e, rest, hl, hsev⟩
    rw [key, hl]
    simp [List.find?, hsev]

/-- Evaluation of `Exec_first_error_amended` on a reply carrying a warning and
then an error, with `ErrOnWarning` unset: the error entry is cited. -/
theorem Exec_first_error_amended_witness :
    (∃ e ∈ [warnEntry, errEntry], e.Severity = "error")
    ∧ ((scriptedSession "<w/><e/>" none false).Exec (tableCodec sampleTable) "101" ["get"]
        freshWorld).1.2 = some (GoError.rpcError errEntry) := by
  have hex : ∃ e ∈ [warnEntry, errEntry], e.Severity = "error" := ⟨errEntry, by simp, rfl⟩
  have h := Exec_first_error_amended (tableCodec sampleTable)
    (scriptedSession "<w/><e/>" none false) "101" ["get"] freshWorld "101:get" "<w/><e/>"
    { Errors := some [warnEntry, errEntry] } rfl rfl rfl hex
  exact ⟨hex, h.2.1 rfl⟩

/-- C3: when the decoded list is non-empty and every entry has severity
"warning", `Exec` returns the reply with a nil error if `ErrOnWarning` is false,
the `Errors` list of that reply being the full decoded list, and returns the
first entry as a non-nil error if `ErrOnWarning` is true. -/
theorem Exec_only_warnings (c : Codec) (s : Session σ ρ) (messageID : String)
    (methods : List RPCMethod) (w : World σ ρ) (request rawXML : Bytes) (body : ReplyBody)
    (errors : List RPCError)
    (hm : c.Marshal { MessageID := messageID, Methods := methods } = .ok request)
    (hs : (s.Transport.SendReceive messageID (xmlHeader ++ request) w.transport).1
      = (rawXML, none))
    (hd : c.decode rawXML = .ok body)
    (he : body.Errors = some errors) (hne : errors ≠ [])
    (hw : ∀ e ∈ errors, e.Severity = "warning") :
    (s.ErrOnWarning = false →
        ∃ reply, (s.Exec c messageID methods w).1 = (some reply, none)
          ∧ reply.Errors = some errors ∧ reply.RawReply = rawXML)
    ∧ (s.ErrOnWarning = true →
        ∃ e rest, errors = e :: rest
          ∧ (s.Exec c messageID methods w).1.2 = some (GoError.rpcError e)) := by
  have hall := Exec_of_decoded c s messageID methods w request rawXML body hm hs hd
  have key : (s.Exec c messageID methods w).1.2
      = (errors.find? (fun e => e.Severity == "error" || s.ErrOnWarning)).map
          GoError.rpcError := by
    rw [hall, classify_error, rangeErrors_eq_find]
    simp [he]
  constructor
  · intro h
    refine ⟨{ toReplyBody := body, RawReply := rawXML }, ?_, he, rfl⟩
    apply Prod.ext
    · rw [hall]; exact classify_reply _ _
    · rw [key, h]
      simp only [Bool.or_false, Option.map_eq_none', List.find?_eq_none]
      intro e hmem
      simp [hw e hmem]
  · intro h
    cases errors with
    | nil => exact absurd rfl hne
    | cons e rest =>
      refine ⟨e, rest, rfl, ?_⟩
      rw [key, h]
      simp

/-- Evaluation of `Exec_only_warnings` on the single-warning reply with
`ErrOnWarning` unset: success, and the reply keeps its one entry. -/
theorem Exec_only_warnings_witness :
    ∃ reply, ((scriptedSession "<w/>" none false).Exec (tableCodec sampleTable) "101" ["get"]
        freshWorld).1 = (some reply, none)
      ∧ reply.Errors = some [warnEntry] ∧ reply.RawReply = "<w/>" :=
  (Exec_only_warnings (tableCodec sampleTable) (scriptedSession "<w/>" none false) "101" ["get"]
    freshWorld "101:get" "<w/>" { Errors := some [warnEntry] } [warnEntry] rfl rfl rfl rfl
    (by simp) (by intro e he; simp at he; rw [he]; rfl)).1 rfl

end Severity

/-! ## The round trip of `Session.Exec` (lines 20-45) -/

section RoundTrip

variable {σ ρ : Type}

/-- C4: when `SendReceive` and decoding succeeded and `Exec` returns a non-nil
error, the returned reply is non-nil and is the fully decoded reply (`RawReply`
is what the transport returned, the decoded fields and so the `Errors` list are
complete), and the error is one of the entries of that list. `Exec` returns a
nil reply exactly when encoding, `SendReceive` or decoding failed. -/
theorem Exec_reply_with_error (c : Codec) (s : Session σ ρ) (messageID : String)
    (methods : List RPCMethod) (w : World σ ρ) :
    (∀ (request rawXML : Bytes) (body : ReplyBody),
      c.Marshal { MessageID := messageID, Methods := methods } = .ok request →
      (s.Transport.SendReceive messageID (xmlHeader ++ request) w.transport).1
        = (rawXML, none) →
      c.decode rawXML = .ok body →
      ∀ err, (s.Exec c messageID methods w).1.2 = some err →
        ∃ reply, (s.Exec c messageID methods w).1.1 = some reply
          ∧ reply.RawReply = rawXML ∧ reply.toReplyBody = body
          ∧ ∃ errors e, reply.Errors = some errors ∧ e ∈ errors ∧ err = GoError.rpcError e)
    ∧ ((s.Exec c messageID methods w).1.1 = none ↔
        (∃ err, c.Marshal { MessageID := messageID, Methods := methods } = .error err)
        ∨ (∃ request err,
            c.Marshal { MessageID := messageID, Methods := methods } = .ok request
            ∧ (s.Transport.SendReceive messageID (xmlHeader ++ request) w.transport).1.2
                = some err)
        ∨ (∃ request rawXML err,
            c.Marshal { MessageID := messageID, Methods := methods } = .ok request
            ∧ (s.Transport.SendReceive messageID (xmlHeader ++ request) w.transport).1
                = (rawXML, none)
            ∧ c.decode rawXML = .error err)) := by
  constructor
  · intro request rawXML body hm hs hd err herr
    have hall := Exec_of_decoded c s messageID methods w request rawXML body hm hs hd
    refine ⟨{ toReplyBody := body, RawReply := rawXML }, ?_, rfl, rfl, ?_⟩
    · rw [hall]; exact classify_reply _ _
    · rw [hall, classify_error, rangeErrors_eq_find] at herr
      cases hE : body.Errors with
      | none => simp [hE] at herr
      | some errors =>
        simp only [hE, Option.getD_some, Option.map_eq_some'] at herr
        obtain ⟨e, hfind, he⟩ := herr
        exact ⟨errors, e, rfl, List.mem_of_find?_eq_some hfind, he.symm⟩
  · cases hm : c.Marshal { MessageID := messageID, Methods := methods } with
    | error err =>
      rw [Exec_of_marshal_error c s messageID methods w err hm]
      simp
    | ok request =>
      cases hs2 : (s.Transport.SendReceive messageID (xmlHeader ++ request) w.transport).1.2 with
      | some err =>
        rw [Exec_of_transport_error c s messageID methods w request err hm hs2]
        simp only [true_iff]
        right; left
        exact ⟨request, err, rfl, hs2⟩
      | none =>
        have hs : (s.Transport.SendReceive messageID (xmlHeader ++ request) w.transport).1
            = ((s.Transport.SendReceive messageID (xmlHeader ++ request) w.transport).1.1,
                none) := Prod.ext rfl hs2
        cases hd : c.decode
            (s.Transport.SendReceive messageID (xmlHeader ++ request) w.transport).1.1 with
        | error err =>
          rw [Exec_of_decode_error c s messageID methods w request _ err hm hs hd]
          simp only [true_iff]
          right; right
          exact ⟨request, _, err, rfl, hs, hd⟩
        | ok body =>
          rw [Exec_of_decoded c s messageID methods w request _ body hm hs hd, classify_reply]
          simp only [reduceCtorEq, false_iff]
          rintro (⟨err, h⟩ | ⟨request2, err, h, hs3⟩ | ⟨request2, rawXML, err, h, hs3, hd3⟩)
          · cases h
          · cases h
            rw [hs2] at hs3
            cases hs3
          · cases h
            rw [hs] at hs3
            have h1 := congrArg Prod.fst hs3
            simp only at h1
            rw [h1, hd3] at hd
            cases hd

/-- Evaluation of `Exec_reply_with_error` on a reply carrying an error and then
a warning: the caller gets the error together with the complete reply. -/
theorem Exec_reply_with_error_witness :
    ∃ reply, ((scriptedSession "<e/><w/>" none false).Exec (tableCodec sampleTable) "101"
        ["get"] freshWorld).1.1 = some reply
      ∧ reply.RawReply = "<e/><w/>"
      ∧ reply.toReplyBody = { Errors := some [errEntry, warnEntry] }
      ∧ ∃ errors e, reply.Errors = some errors ∧ e ∈ errors
          ∧ GoError.rpcError errEntry = GoError.rpcError e :=
  (Exec_reply_with_error (tableCodec sampleTable) (scriptedSession "<e/><w/>" none false) "101"
    ["get"] freshWorld).1 "101:get" "<e/><w/>" { Errors := some [errEntry, warnEntry] }
    rfl rfl rfl (GoError.rpcError errEntry) rfl

/-- C5 (as stated, refuted): for the `<ok/>` reply, which carries no errors,
`Exec` succeeds, but decoding the `RawReply` of the returned reply on its own,
into a zero `RPCReply`, gives a value that is not equal to the returned reply:
its `RawReply` is empty. -/
theorem Exec_no_errors_roundtrip_counterexample :
    ((scriptedSession "<ok/>" none false).Exec (tableCodec sampleTable) "101" ["get"]
        freshWorld).1
      = (some { Errors := none, Data := "<ok/>", RawReply := "<ok/>" }, none)
    ∧ (tableCodec sampleTable).Unmarshal "<ok/>" {}
      = .ok { Errors := none, Data := "<ok/>", RawReply := "" }
    ∧ ({ Errors := none, Data := "<ok/>", RawReply := "" } : RPCReply)
      ≠ { Errors := none, Data := "<ok/>", RawReply := "<ok/>" } := by
  refine ⟨rfl, rfl, ?_⟩
  decide

/-- C5 (amended): when the reply decodes successfully and carries no errors
(`Errors` nil or empty), `Exec` returns a nil error and a non-nil reply whose
`RawReply` is what `SendReceive` returned and whose decoded fields are the
decode of that raw text. Decoding `RawReply` on its own into a zero `RPCReply`
succeeds and gives a value with the same decoded fields and an empty
`RawReply`; it equals the returned reply once its `RawReply` is set to the raw
text, and differs from it whenever the raw text is not empty. -/
theorem Exec_no_errors_roundtrip_amended (c : Codec) (s : Session σ ρ) (messageID : String)
    (methods : List RPCMethod) (w : World σ ρ) (request rawXML : Bytes) (body : ReplyBody)
    (hm : c.Marshal { MessageID := messageID, Methods := methods } = .ok request)
    (hs : (s.Transport.SendReceive messageID (xmlHeader ++ request) w.transport).1
      = (rawXML, none))
    (hd : c.decode rawXML = .ok body)
    (he : body.Errors = none ∨ body.Errors = some []) :
    ∃ reply, (s.Exec c messageID methods w).1 = (some reply, none)
      ∧ reply.RawReply = rawXML
      ∧ reply.toReplyBody = body
      ∧ ∃ fresh, c.Unmarshal reply.RawReply {} = .ok fresh
        ∧ fresh.toReplyBody = reply.toReplyBody
        ∧ fresh.RawReply = ""
        ∧ ({ fresh with RawReply := reply.RawReply } : RPCReply) = reply
        ∧ (rawXML ≠ "" → fresh ≠ reply) := by
  refine ⟨{ toReplyBody := body, RawReply := rawXML }, ?_, rfl, rfl,
    { toReplyBody := body, RawReply := "" }, ?_, rfl, rfl, rfl, ?_⟩
  · rw [Exec_of_decoded c s messageID methods w request rawXML body hm hs hd]
    apply Prod.ext
    · exact classify_reply _ _
    · rw [classify_error]
      rcases he with he | he <;> simp [he, Session.Exec.rangeErrors]
  · simp [Codec.Unmarshal, hd]
  · intro hne heq
    exact hne (congrArg RPCReply.RawReply heq).symm

/-- Evaluation of `Exec_no_errors_roundtrip_amended` on an `<ok/>` reply with
`ErrOnWarning` set. -/
theorem Exec_no_errors_roundtrip_amended_witness :
    ∃ reply, ((scriptedSession "<ok/>" none true).Exec (tableCodec sampleTable) "101" ["get"]
        freshWorld).1 = (some reply, none)
      ∧ reply.RawReply = "<ok/>"
      ∧ reply.toReplyBody = { Errors := none, Data := "<ok/>" }
      ∧ ∃ fresh, (tableCodec sampleTable).Unmarshal reply.RawReply {} = .ok fresh
        ∧ fresh.toReplyBody = reply.toReplyBody
        ∧ fresh.RawReply = ""
        ∧ ({ fresh with RawReply := reply.RawReply } : RPCReply) = reply
        ∧ (("<ok/>" : Bytes) ≠ "" → fresh ≠ reply) :=
  Exec_no_errors_roundtrip_amended (tableCodec sampleTable) (scriptedSession "<ok/>" none true)
    "101" ["get"] freshWorld "101:get" "<ok/>" { Errors := none, Data := "<ok/>" } rfl rfl rfl
    (Or.inl rfl)

/-- C6: once the envelope is encoded, an error `e` from `SendReceive` makes
`Exec` return exactly `(nil, e)`, and an error `e` from decoding the returned
bytes makes `Exec` return exactly `(nil, e)`; this holds whatever value
`ErrOnWarning` is given. -/
theorem Exec_failure_surfaced (c : Codec) (s : Session σ ρ) (messageID : String)
    (methods : List RPCMethod) (w : World σ ρ) (request : Bytes)
    (hm : c.Marshal { MessageID := messageID, Methods := methods } = .ok request) :
    (∀ err,
      (s.Transport.SendReceive messageID (xmlHeader ++ request) w.transport).1.2 = some err →
        (s.Exec c messageID methods w).1 = (none, some err)
        ∧ ∀ b, (Session.Exec c { s with ErrOnWarning := b } messageID methods w).1
            = (none, some err))
    ∧ (∀ rawXML err,
      (s.Transport.SendReceive messageID (xmlHeader ++ request) w.transport).1
          = (rawXML, none) →
        c.decode rawXML = .error err →
        (s.Exec c messageID methods w).1 = (none, some err)
        ∧ ∀ b, (Session.Exec c { s with ErrOnWarning := b } messageID methods w).1
            = (none, some err)) := by
  constructor
  · intro err hs
    exact ⟨Exec_of_transport_error c s messageID methods w request err hm hs,
      fun b => Exec_of_transport_error c { s with ErrOnWarning := b } messageID methods w
        request err hm hs⟩
  · intro rawXML err hs hd
    exact ⟨Exec_of_decode_error c s messageID methods w request rawXML err hm hs hd,
      fun b => Exec_of_decode_error c { s with ErrOnWarning := b } messageID methods w
        request rawXML err hm hs hd⟩

/-- Evaluation of `Exec_failure_surfaced`: a transport that fails with "EOF"
(and hands back some bytes all the same), and a reply that does not decode. -/
theorem Exec_failure_surfaced_witness :
    ((scriptedSession "<e/>" (some (GoError.external "EOF")) true).Exec (tableCodec sampleTable)
        "101" ["get"] freshWorld).1 = (none, some (GoError.external "EOF"))
    ∧ ((scriptedSession "<rpc-reply" none true).Exec (tableCodec sampleTable)
        "101" ["get"] freshWorld).1 = (none, some (GoError.external "xml: malformed reply")) :=
  ⟨((Exec_failure_surfaced (tableCodec sampleTable)
      (scriptedSession "<e/>" (some (GoError.external "EOF")) true) "101" ["get"] freshWorld
      "101:get" rfl).1 (GoError.external "EOF") rfl).1,
   ((Exec_failure_surfaced (tableCodec sampleTable)
      (scriptedSession "<rpc-reply" none true) "101" ["get"] freshWorld
      "101:get" rfl).2 "<rpc-reply" (GoError.external "xml: malformed reply") rfl rfl).1⟩

/-- C7: the envelope that `Exec` encodes is `NewRPCMessage(methods)` with
`MessageID` set to the caller's identifier; it holds the supplied methods in
order. If encoding it fails, `Exec` returns `(nil, err)` and leaves the world
untouched: no `Transport` call. Otherwise the trace grows by exactly one call,
`SendReceive(messageID, xml.Header ++ encoded)`, and the transport state is the
one that call left, whatever the call returned. -/
theorem Exec_transport_trace (c : Codec) (s : Session σ ρ) (messageID : String)
    (methods : List RPCMethod) (w : World σ ρ) :
    ({ NewRPCMessage methods with MessageID := messageID } : RPCMessage)
        = { MessageID := messageID, Methods := methods }
    ∧ match c.Marshal { NewRPCMessage methods with MessageID := messageID } with
      | .error err => s.Exec c messageID methods w = ((none, some err), w)
      | .ok request =>
        (s.Exec c messageID methods w).2.calls
            = w.calls ++ [Call.SendReceive messageID (xmlHeader ++ request)]
        ∧ (s.Exec c messageID methods w).2.transport
            = (s.Transport.SendReceive messageID (xmlHeader ++ request) w.transport).2 := by
  refine ⟨rfl, ?_⟩
  split
  · next err hm => exact Exec_of_marshal_error c s messageID methods w err hm
  · next request hm =>
    refine ⟨Exec_calls_of_marshal_ok c s messageID methods w request hm, ?_⟩
    have hm2 : c.Marshal { MessageID := messageID, Methods := methods } = .ok request := hm
    simp only [Session.Exec, NewRPCMessage, hm2]
    split
    · simp [World.sendReceive, World.debugf]
    · split <;> simp [World.sendReceive, World.debugf]

end RoundTrip

/-! ## The handshake of `NewSession` (lines 60-77) -/

section Handshake

variable {σ ρ : Type}

/-- C8: when `ReceiveHello` yields a hello message `h`, whatever error comes
with it, `NewSession` returns a session on the given transport and logger with
`SessionID = h.SessionID`, `ServerCapabilities = h.Capabilities` and
`ErrOnWarning` false, and the transport calls it makes are, in this order,
`ReceiveHello`, `SendHello` with a hello whose only content is
`DefaultCapabilities`, and `StartReader`. -/
theorem NewSession_handshake (DefaultCapabilities : List String) (t : Transport σ)
    (log : Logger ρ) (w : World σ ρ) (h : HelloMessage) (herr : Option GoError)
    (hr : (t.ReceiveHello w.transport).1 = (some h, herr)) :
    ∃ s, (NewSession DefaultCapabilities t log w).1 = Outcome.returned s
      ∧ s.Transport = t ∧ s.log = log
      ∧ s.SessionID = h.SessionID
      ∧ s.ServerCapabilities = h.Capabilities
      ∧ s.ErrOnWarning = false
      ∧ (NewSession DefaultCapabilities t log w).2.calls
          = w.calls ++ [Call.ReceiveHello,
              Call.SendHello { Capabilities := DefaultCapabilities, SessionID := 0 },
              Call.StartReader] := by
  have h1 : (t.ReceiveHello w.transport).1.1 = some h := congrArg Prod.fst hr
  refine ⟨{ Transport := t, log := log, SessionID := h.SessionID,
            ServerCapabilities := h.Capabilities }, ?_, rfl, rfl, rfl, rfl, rfl, ?_⟩
  · simp [NewSession, World.receiveHello, h1]
  · simp [NewSession, World.receiveHello, World.sendHello, World.startReader, h1]

/-- Evaluation of `NewSession_handshake` on a transport that delivers
`peerHello`. -/
theorem NewSession_handshake_witness :
    ∃ s, (NewSession clientCapabilities (scriptedTransport (some peerHello) none "" none)
        recordingLogger freshWorld).1 = Outcome.returned s
      ∧ s.Transport = scriptedTransport (some peerHello) none "" none
      ∧ s.log = recordingLogger
      ∧ s.SessionID = 4711
      ∧ s.ServerCapabilities = ["urn:ietf:params:netconf:base:1.0",
          "urn:ietf:params:netconf:capability:candidate:1.0"]
      ∧ s.ErrOnWarning = false
      ∧ (NewSession clientCapabilities (scriptedTransport (some peerHello) none "" none)
          recordingLogger freshWorld).2.calls
          = [Call.ReceiveHello,
              Call.SendHello { Capabilities := ["urn:ietf:params:netconf:base:1.0"] },
              Call.StartReader] :=
  NewSession_handshake clientCapabilities (scriptedTransport (some peerHello) none "" none)
    recordingLogger freshWorld peerHello none rfl

/-- C9: evaluation of `NewSession` where the claim asks construction to fail.
A transport whose `ReceiveHello` reports an error next to a zero-valued hello,
and a transport whose hello has a zero `SessionID`, both get a session with
`SessionID` 0 back, after `SendHello` and `StartReader` were called. A transport
that hands back no hello at all stops `NewSession` with a panic, after
`ReceiveHello` alone. -/
theorem NewSession_failed_hello_evaluation :
    ((∃ s, (NewSession clientCapabilities
          (scriptedTransport (some {}) (some (GoError.external "EOF")) "" none)
          recordingLogger freshWorld).1 = Outcome.returned s
        ∧ s.SessionID = 0 ∧ s.ServerCapabilities = [])
      ∧ (NewSession clientCapabilities
          (scriptedTransport (some {}) (some (GoError.external "EOF")) "" none)
          recordingLogger freshWorld).2.calls
        = [Call.ReceiveHello, Call.SendHello { Capabilities := clientCapabilities },
            Call.StartReader])
    ∧ (anonymousHello.SessionID = 0
      ∧ (∃ s, (NewSession clientCapabilities
          (scriptedTransport (some anonymousHello) none "" none)
          recordingLogger freshWorld).1 = Outcome.returned s ∧ s.SessionID = 0)
      ∧ (NewSession clientCapabilities
          (scriptedTransport (some anonymousHello) none "" none)
          recordingLogger freshWorld).2.calls
        = [Call.ReceiveHello, Call.SendHello { Capabilities := clientCapabilities },
            Call.StartReader])
    ∧ ((NewSession clientCapabilities
          (scriptedTransport none (some (GoError.external "EOF")) "" none)
          recordingLogger freshWorld).1 = Outcome.panicked
      ∧ (NewSession clientCapabilities
          (scriptedTransport none (some (GoError.external "EOF")) "" none)
          recordingLogger freshWorld).2.calls = [Call.ReceiveHello]) :=
  ⟨⟨⟨_, rfl, rfl, rfl⟩, rfl⟩, ⟨rfl, ⟨_, rfl, rfl⟩, rfl⟩, ⟨rfl, rfl⟩⟩

end Handshake

end Netconf
